import Mathlib

/-!
Verification development for the cle ELF loader (src/cle/cle.py).

The development is a shallow embedding of the loader: Python dictionaries
keyed by integer addresses become functions from Nat to Option Nat, dicts
keyed by strings become association lists (a Python dict has unique keys and
a deterministic per-run iteration order, which the list order stands for),
Python integers become Nat (all quantities involved are non-negative machine
addresses and sizes, and Python integers do not overflow), and code that can
raise an exception returns an Option or Except value, with none or error
denoting the raised exception.

Each definition is translated from the named function of src/cle/cle.py.
Where the Python source crashes unconditionally on a code path (an unbound
name, or an attribute lookup broken by private-name mangling), the embedding
returns none on that path and the accompanying comment records the exact
source-level reason.
-/

namespace Cle

/-- Sparse memory: a map from addresses to an optionally stored value.
Models the Python dicts self.memory of Elf and of Ld (the source stores
single bytes for segment data and whole words for GOT patches in the same
dict; values are Nat either way). -/
abbrev Mem := Nat → Option Nat

/-- Memory with nothing stored: a fresh empty dict. -/
def emptyMem : Mem := fun _ => none

/-- Dictionary assignment m[a] = v. -/
def store (m : Mem) (a v : Nat) : Mem := fun x => if x = a then some v else m x

/-- Segment, from class Segment of cle.py: name, vaddr, size, offset. -/
structure Segment where
  name : String
  vaddr : Nat
  size : Nat
  offset : Option Nat
deriving DecidableEq

/-- Segment.contains_addr of cle.py:
returns (addr > self.vaddr) and (addr < self.vaddr + self.size),
a strict inequality on both ends. -/
def Segment.contains_addr (s : Segment) (addr : Nat) : Bool :=
  (addr > s.vaddr) && (addr < s.vaddr + s.size)

/-- Elf.in_which_segment of cle.py: walk self.segments in order, return the
name of the first segment whose contains_addr test holds, else None. -/
def in_which_segment : List Segment → Nat → Option String
  | [], _ => none
  | s :: rest, vaddr =>
    if s.contains_addr vaddr then some s.name else in_which_segment rest vaddr

/-- Program header entry, from Elf.__get_phdr of cle.py: the five integer
fields offset, vaddr, filesz, memsz, align, and the type string. -/
structure Phdr where
  offset : Nat
  vaddr : Nat
  filesz : Nat
  memsz : Nat
  align : Nat
  type : String
deriving DecidableEq

/-- Elf.get_text_phdr_ent of cle.py: first program header entry with
type PT_LOAD and filesz == memsz; None when there is no such entry. -/
def get_text_phdr_ent : List Phdr → Option Phdr
  | [] => none
  | p :: rest =>
    if p.type = "PT_LOAD" ∧ p.filesz = p.memsz then some p
    else get_text_phdr_ent rest

/-- Elf.get_data_phdr_ent of cle.py: first program header entry with
type PT_LOAD and filesz != memsz; None when there is no such entry. -/
def get_data_phdr_ent : List Phdr → Option Phdr
  | [] => none
  | p :: rest =>
    if p.type = "PT_LOAD" ∧ ¬ p.filesz = p.memsz then some p
    else get_data_phdr_ent rest

/-- Symbol table entry, from Elf.__get_symbols of cle.py: the addr, binding
and type fields kept for each name (binding and type are the strings the
extractor prints, such as STB_GLOBAL and SHN_UNDEF). -/
structure Symb where
  addr : Nat
  binding : String
  type : String
deriving DecidableEq

/-- Elf.get_imports of cle.py: the symbols whose type field is SHN_UNDEF,
as a name-to-addr table. -/
def get_imports (symbols : List (String × Symb)) : List (String × Nat) :=
  (symbols.filter (fun p => p.2.type = "SHN_UNDEF")).map (fun p => (p.1, p.2.addr))

/-- Elf.get_exports of cle.py: the symbols whose binding field is STB_GLOBAL,
as a name-to-addr table. The source checks only the binding; it has no test
on the type or section field of the symbol. -/
def get_exports (symbols : List (String × Symb)) : List (String × Nat) :=
  (symbols.filter (fun p => p.2.binding = "STB_GLOBAL")).map (fun p => (p.1, p.2.addr))

/-- Elf.arch_to_qemu_arch of cle.py: five known BFD names are mapped, any
other input raises CLException, modelled as the error branch. -/
def arch_to_qemu_arch (arch : String) : Except String String :=
  if arch = "i386:x86-64" then Except.ok "x86_64"
  else if arch = "mips:isa32" then Except.ok "mips"
  else if arch = "powerpc:common" then Except.ok "ppc"
  else if arch = "armv4t" then Except.ok "arm"
  else if arch = "i386" then Except.ok "i386"
  else Except.error ("Architecture name conversion not implemented yetfor " ++ arch)

/-- Elf.arch_to_simuvex_arch of cle.py: five known BFD names are mapped.
The function has no else branch: on any other input the Python function
falls off the end and returns None. It never raises, so in the embedding
the error constructor of the Except wrapper is unreachable; the wrapper is
kept so that raising and returning None stay distinguishable. -/
def arch_to_simuvex_arch (arch : String) : Except String (Option String) :=
  if arch = "i386:x86-64" then Except.ok (some "AMD64")
  else if arch = "mips:isa32" then Except.ok (some "MIPS32")
  else if arch = "powerpc:common" then Except.ok (some "PPC32")
  else if arch = "armv4t" then Except.ok (some "ARM")
  else if arch = "i386" then Except.ok (some "X86")
  else Except.ok none

/-- The five extractor tags recognised by the two architecture functions. -/
def knownArchTags : List String :=
  ["i386:x86-64", "mips:isa32", "powerpc:common", "armv4t", "i386"]

/-- Loop body of Elf.load_segment of cle.py: for i in range(vaddr, vaddr+size),
raise CLException when i is already in self.memory (segments overlapping),
else store the next file byte; the byte stored at vaddr+k is the file byte
at offset+k, since the file is read sequentially from offset. -/
def load_seg_bytes (file : Nat → Nat) : Nat → Nat → Nat → Mem → Option Mem
  | _, _, 0, m => some m
  | offset, vaddr, size + 1, m =>
    if (m vaddr).isSome then none
    else load_seg_bytes file (offset + 1) (vaddr + 1) size (store m vaddr (file offset))

/-- Loop of Elf.__load_bss of cle.py: for i in range(off, off + size),
set self.memory[i] = 0, with no overlap check. -/
def fill_zero : Mem → Nat → Nat → Mem
  | m, _, 0 => m
  | m, off, size + 1 => fill_zero (store m off 0) (off + 1) size

/-- Elf.__load_bss of cle.py: size = memsz - filesz, off = vaddr + filesz,
then zero-fill the range. Python range is empty when size is negative, which
Nat subtraction reproduces. -/
def load_bss (m : Mem) (data : Phdr) : Mem :=
  fill_zero m (data.vaddr + data.filesz) (data.memsz - data.filesz)

/-- Elf.load of cle.py: find the text and data program header entries, load
filesz bytes of each into the private memory dict (Elf.__load raises when
the entry is missing, load_segment raises on overlap), then fill the BSS.
The file argument gives the byte of the binary file at each offset. -/
def elf_load (file : Nat → Nat) (phdr : List Phdr) : Option Mem :=
  match get_text_phdr_ent phdr with
  | none => none
  | some t =>
    match load_seg_bytes file t.offset t.vaddr t.filesz emptyMem with
    | none => none
    | some m1 =>
      match get_data_phdr_ent phdr with
      | none => none
      | some m2hdr =>
        match load_seg_bytes file m2hdr.offset m2hdr.vaddr m2hdr.filesz m1 with
        | none => none
        | some m2 => some (load_bss m2 m2hdr)

/-- Elf.__get_max_addr of cle.py: m1 = text.vaddr + text.memsz + rebase_addr,
m2 = data.vaddr + data.memsz + rebase_addr, return the larger. None models
the TypeError raised when either program header entry is missing. -/
def elf_get_max_addr (phdr : List Phdr) (rebase_addr : Nat) : Option Nat :=
  match get_text_phdr_ent phdr, get_data_phdr_ent phdr with
  | some t, some d =>
    let m1 := t.vaddr + t.memsz + rebase_addr
    let m2 := d.vaddr + d.memsz + rebase_addr
    some (if m1 > m2 then m1 else m2)
  | _, _ => none

/-- Loaded object as the linker Ld sees it: the private memory dict (as the
finite address-value list the dict holds), the symbol table, the jmprel
table (symbol name to GOT slot address, from Elf.__get_jmprel), and the
rebase_addr field (0 until the linker assigns it). -/
structure SObj where
  memory : List (Nat × Nat)
  symbols : List (String × Symb)
  jmprel : List (String × Nat)
  rebase_addr : Nat
deriving DecidableEq

/-- State of class Ld of cle.py: the composed memory dict, the main binary,
and the list of loaded shared objects in load order. -/
structure LdState where
  memory : Mem
  main_bin : SObj
  shared_objects : List SObj

/-- Ld.find_symbol_addr of cle.py: walk the shared objects in order; for the
first one whose exports contain the symbol, return export addr plus that
objects rebase_addr; None when no shared object exports it. The main binary
is not consulted. -/
def find_symbol_addr : List SObj → String → Option Nat
  | [], _ => none
  | so :: rest, symbol =>
    match List.lookup symbol (get_exports so.symbols) with
    | some a => some (a + so.rebase_addr)
    | none => find_symbol_addr rest symbol

/-- Loop body of Ld.__reloc of cle.py for one jmprel entry (symb, got_addr):
uaddr = find_symbol_addr(symb); the test if uaddr is false for both None and
the integer 0, and in that case only a debug diagnostic is emitted and the
memory is untouched; otherwise uaddr = uaddr + obj.rebase_addr is stored at
self.memory[got_addr] — the write goes to the un-rebased got_addr, and the
rebase_addr of the owning object is added to the stored value, exactly as
the source spells it. -/
def reloc_entry (sos : List SObj) (obj : SObj) (m : Mem) (entry : String × Nat) : Mem :=
  match find_symbol_addr sos entry.1 with
  | none => m
  | some uaddr => if uaddr = 0 then m else store m entry.2 (uaddr + obj.rebase_addr)

/-- Ld.__reloc of cle.py: fold the loop body over the jmprel table of obj. -/
def reloc_obj (sos : List SObj) (obj : SObj) (m : Mem) : Mem :=
  obj.jmprel.foldl (reloc_entry sos obj) m

/-- Ld.__perform_reloc of cle.py: relocate the main binary, then every
shared object in load order, threading the composed memory. -/
def perform_reloc (st : LdState) : LdState :=
  let m1 := reloc_obj st.shared_objects st.main_bin st.memory
  let m2 := st.shared_objects.foldl (fun m obj => reloc_obj st.shared_objects obj m) m1
  { st with memory := m2 }

/-- Ld.__load_exe of cle.py: copy the main binary memory into the composed
memory, raising CLException when an address is already populated. -/
def load_exe_mem : List (Nat × Nat) → Mem → Option Mem
  | [], m => some m
  | (a, v) :: rest, m =>
    if (m a).isSome then none else load_exe_mem rest (store m a v)

/-- Ld.rebase_lib of cle.py: copy every (addr, data) of the shared object
memory to addr + base in the composed memory. The loop performs a plain
dict assignment: there is no check of what is already stored there. -/
def rebase_lib (m : Mem) (so : SObj) (base : Nat) : Mem :=
  so.memory.foldl (fun mm p => store mm (p.1 + base) p.2) m

/-- Filesystem and loader environment for Ld.__load_so of cle.py:
path_exists models os.path.exists, elf_of models the Elf constructor on an
existing path, search_so models Ld.__search_so (the fallback search). -/
structure FsEnv where
  path_exists : String → Bool
  elf_of : String → SObj
  search_so : String → Option String

/-- Ld.__load_so of cle.py: when the soname does not exist as a path, run the
fallback search; when the search fails, log a diagnostic and return None.
When the search succeeds the source stores the found path but the branch
then falls through the if statement without a return, so the function
returns None in that case as well. Only an existing path yields an object. -/
def load_so (env : FsEnv) (soname : String) : Option SObj :=
  if env.path_exists soname = false then
    match env.search_so soname with
    | none => none
    | some _ => none
  else some (env.elf_of soname)

/-- Ld.__load_shared_libs of cle.py: for each (name, addr) of the resolver
mapping, so = __load_so(name); then rebase_lib(so, addr) — when so is None
this dereferences so.memory and raises AttributeError, which the none branch
models; then so.rebase_addr = addr and the object is appended. -/
def load_shared_libs (env : FsEnv) : List (String × Nat) → LdState → Option LdState
  | [], st => some st
  | (name, addr) :: rest, st =>
    match load_so env name with
    | none => none
    | some so =>
      load_shared_libs env rest
        { st with
          memory := rebase_lib st.memory so addr,
          shared_objects := st.shared_objects ++ [{ so with rebase_addr := addr }] }

/-- Ld.__init__ of cle.py after the main binary is constructed: __load_exe,
__load_shared_libs with the resolver mapping, __perform_reloc. -/
def compose (env : FsEnv) (main : SObj) (libs : List (String × Nat)) : Option LdState :=
  match load_exe_mem main.memory emptyMem with
  | none => none
  | some m =>
    match load_shared_libs env libs { memory := m, main_bin := main, shared_objects := [] } with
    | none => none
    | some st => some (perform_reloc st)

/-- Attribute reached by the call self.main_bin.__get_max_addr() inside class
Ld of cle.py: Python mangles a double-underscore attribute name by the class
the text occurs in, so inside Ld the call looks up _Ld__get_max_addr on the
Elf instance. Class Elf defines only _Elf__get_max_addr, so the lookup finds
nothing and the call raises AttributeError. -/
def elf_attr_mangled_get_max_addr : Option (SObj → Nat) := none

/-- Ld.max_addr of cle.py: m1 = self.main_bin.__get_max_addr(), then the
maximum over the shared objects of i.__get_max_addr(). Both calls go through
the mangled attribute lookup above, which finds nothing, so the method
raises AttributeError before computing anything. -/
def ld_max_addr (st : LdState) : Option Nat :=
  match elf_attr_mangled_get_max_addr with
  | none => none
  | some f =>
    some (st.shared_objects.foldl (fun m1 i => if f i > m1 then f i else m1) (f st.main_bin))

/-- Ld.override_got_entry of cle.py: when the name is not in the jmprel table
of obj, log a diagnostic and return False with the state untouched. When the
name is present the source executes mem[addr] = newaddr, but no name mem is
bound anywhere in the program, so the statement raises NameError; the none
branch models that crash. -/
def override_got_entry (st : LdState) (name : String) (newaddr : Nat) (obj : SObj) :
    Option (LdState × Bool) :=
  match List.lookup name obj.jmprel with
  | none => some (st, false)
  | some _ => none

/-- Concrete symbol table of the classification scenario: printf is an
undefined global, main a defined global, helper a defined local. -/
def symbolsC3 : List (String × Symb) :=
  [("printf", ⟨0, "STB_GLOBAL", "SHN_UNDEF"⟩),
   ("main", ⟨0x400400, "STB_GLOBAL", "1"⟩),
   ("helper", ⟨0x400500, "STB_LOCAL", "1"⟩)]

/-- Main binary of the relocation scenario: no bytes, no jmprel. -/
def mainC1 : SObj := ⟨[], [], [], 0⟩

/-- First dependency of the relocation scenario: one byte at 0, one jmprel
entry binding f to GOT slot 0x10, loaded at base 0x1000. -/
def libaC1 : SObj := ⟨[(0, 1)], [], [("f", 0x10)], 0⟩

/-- Second dependency of the relocation scenario: exports f at 0x500,
loaded at base 0x2000. -/
def libbC1 : SObj := ⟨[], [("f", ⟨0x500, "STB_GLOBAL", "FUNC"⟩)], [], 0⟩

/-- Environment of the relocation scenario: both sonames exist. -/
def envC1 : FsEnv :=
  ⟨fun _ => true, fun s => if s = "liba.so" then libaC1 else libbC1, fun _ => none⟩

/-- Resolver mapping of the relocation scenario. -/
def libsC1 : List (String × Nat) := [("liba.so", 0x1000), ("libb.so", 0x2000)]

/-- Main binary of the overlap scenario: one byte 0xAA at address 0x1100. -/
def mainC2 : SObj := ⟨[(0x1100, 0xAA)], [], [], 0⟩

/-- Dependency of the overlap scenario: one byte 0xBB at address 0x100;
rebased to 0x1000 it lands on 0x1100, colliding with the main binary. -/
def libC2 : SObj := ⟨[(0x100, 0xBB)], [], [], 0⟩

/-- Environment of the overlap scenario: the soname exists. -/
def envC2 : FsEnv := ⟨fun _ => true, fun _ => libC2, fun _ => none⟩

/-- Object of the override scenario: jmprel binds puts to slot 0x601018. -/
def objC4 : SObj := ⟨[], [], [("puts", 0x601018)], 0⟩

/-- Linker state of the override scenario. -/
def stC4 : LdState := ⟨emptyMem, objC4, []⟩

/-- Text program header of the lone-executable scenario. -/
def tC5 : Phdr := ⟨0, 0x08048000, 0x1000, 0x1000, 0x1000, "PT_LOAD"⟩

/-- Data program header of the lone-executable scenario: filesz 0x100,
memsz 0x200, so the BSS is the range [0x08049100, 0x08049200). -/
def dC5 : Phdr := ⟨0x1000, 0x08049000, 0x100, 0x200, 0x1000, "PT_LOAD"⟩

/-- Program header table of the lone-executable scenario. -/
def phdrC5 : List Phdr := [tC5, dC5]

/-- Segment list of the containment scenario: one segment at 0x10, size 0x20. -/
def segsC6 : List Segment := [⟨"text", 0x10, 0x20, some 0⟩]

/-- Main binary of the missing-dependency scenario. -/
def mainC7 : SObj := ⟨[(0, 0x7F)], [], [], 0⟩

/-- Environment of the missing-dependency scenario: no path exists and the
fallback search finds nothing. -/
def envC7 : FsEnv := ⟨fun _ => false, fun _ => mainC7, fun _ => none⟩

/-- File contents of the BSS scenario: every byte of the binary file reads
0xAB, so only the BSS fill can produce zero bytes. -/
def fileC9 : Nat → Nat := fun _ => 0xAB

/-- Dependency of the zero-export scenario: exports f at address 0 and has
rebase_addr 0. -/
def soC10 : SObj := ⟨[], [("f", ⟨0, "STB_GLOBAL", "FUNC"⟩)], [], 0⟩

/-- Owning object of the zero-export scenario: jmprel binds f to slot 0x10
and the object itself is rebased to 0x1000. -/
def objC10 : SObj := ⟨[], [], [("f", 0x10)], 0x1000⟩

/-- Text program header of the text-above-data layout: filesz = memsz =
0x10, placed at 0x200, above the data segment. -/
def tC9x : Phdr := ⟨0, 0x200, 0x10, 0x10, 0x10, "PT_LOAD"⟩

/-- Data program header of the text-above-data layout: vaddr 0x100, filesz
0x2, memsz 0x4, so the data segment ends at 0x104, below the text segment. -/
def dC9x : Phdr := ⟨0x10, 0x100, 0x2, 0x4, 0x10, "PT_LOAD"⟩

/-- Program header table of the text-above-data layout. The loader accepts
it: the two file-backed ranges are disjoint, which is all the overlap check
of Elf.load_segment demands. -/
def phdrC9x : List Phdr := [tC9x, dC9x]

/-- File contents of the text-above-data layout: every byte of the binary
file is zero bytes. -/
def fileC9x : Nat → Nat := fun _ => 0

/-- C1: the claim states that after composition, for a jmprel entry
(name, got_addr) of an object whose name is exported by a dependency, the
image word at got_addr + object.rebase_addr equals
exporter.export_addr + exporter.rebase_addr. The code violates this:
Ld.__reloc writes self.memory[got_addr], the un-rebased slot address, and
adds the owning objects rebase_addr to the stored value. Concretely: libaC1
(rebased to 0x1000) has jmprel entry (f, 0x10); libbC1 (rebased to 0x2000)
exports f at 0x500. The claim requires the word at 0x10 + 0x1000 = 0x1010 to
equal 0x500 + 0x2000 = 0x2500; instead nothing is stored at 0x1010 and the
value 0x500 + 0x2000 + 0x1000 = 0x3500 is stored at the un-rebased 0x10. -/
theorem spec2proof_C1 :
    List.lookup "f" libaC1.jmprel = some 0x10 ∧
    List.lookup "f" (get_exports libbC1.symbols) = some 0x500 ∧
    (compose envC1 mainC1 libsC1).map
        (fun st => (st.memory (0x10 + 0x1000), st.memory 0x10)) =
      some (none, some (0x500 + 0x2000 + 0x1000)) := by
  decide

/-- C2: the claim states that composition fails with OverlapError whenever
copying a rebased object would write an address already populated. The code
violates this: Ld.rebase_lib performs plain dict assignments with no
membership check (only Ld.__load_exe checks, and it runs on an empty image).
Concretely: mainC2 owns byte 0xAA at 0x1100; libC2 owns byte 0xBB at 0x100
and is rebased to 0x1000, landing on 0x1100. Composition succeeds and the
image holds the library byte at the contested address. -/
theorem spec2proof_C2 :
    (0x1100, 0xAA) ∈ mainC2.memory ∧
    (0x100, 0xBB) ∈ libC2.memory ∧
    (compose envC2 mainC2 [("liba.so", 0x1000)]).map (fun st => st.memory 0x1100) =
      some (some 0xBB) := by
  decide

/-- C4: the claim states that override_got for a name present in the jmprel
table rewrites the GOT slot and reports success. The code violates this: the
present-name branch of Ld.override_got_entry executes mem[addr] = newaddr
where mem is an unbound name, so it raises NameError for every present name.
The absent-name branch behaves as claimed: it returns False and leaves the
state untouched. -/
theorem spec2proof_C4 :
    override_got_entry stC4 "puts" 0xdeadbeef objC4 = none ∧
    override_got_entry stC4 "nonexistent" 0xdeadbeef objC4 = some (stC4, false) :=
  ⟨rfl, rfl⟩

/-- C5: the claim states that Ld.max_addr returns the maximum over all
loaded objects of max(text.vaddr + text.memsz, data.vaddr + data.memsz)
+ rebase_addr. The code violates this: inside class Ld the call
self.main_bin.__get_max_addr() is name-mangled to _Ld__get_max_addr, an
attribute class Elf does not define (it defines _Elf__get_max_addr), so
Ld.max_addr raises AttributeError on every input before computing anything.
The second conjunct evaluates the underlying Elf.__get_max_addr on the
lone-executable scenario, showing the value the claim expected: 0x08049200. -/
theorem spec2proof_C5 :
    (∀ st : LdState, ld_max_addr st = none) ∧
    elf_get_max_addr phdrC5 0 = some 0x08049200 :=
  ⟨fun _ => rfl, by decide⟩

/-- C7: the claim states that a dependency soname that exists neither as a
path nor via the fallback search is logged and omitted, with composition
still succeeding. The code violates this: Ld.__load_so indeed returns None
for the missing library, but Ld.__load_shared_libs passes that None straight
to rebase_lib, which dereferences so.memory and raises AttributeError, so
composition fails. Concretely: with no path existing and the search finding
nothing, composing mainC7 with the single dependency libmissing.so fails. -/
theorem spec2proof_C7 :
    envC7.path_exists "libmissing.so" = false ∧
    envC7.search_so "libmissing.so" = none ∧
    compose envC7 mainC7 [("libmissing.so", 0x1000)] = none :=
  ⟨rfl, rfl, rfl⟩

/-- C3 counterexample: the claim states that get_exports returns exactly the
symbols with binding STB_GLOBAL and section not SHN_UNDEF, and that on the
given table exports = only main. In the code, Elf.get_exports tests only the
binding: printf, whose type field is SHN_UNDEF, is nevertheless exported, so
the exports of the table are not just main. -/
theorem spec2proof_C3_cx :
    List.lookup "printf" symbolsC3 = some ⟨0, "STB_GLOBAL", "SHN_UNDEF"⟩ ∧
    List.lookup "printf" (get_exports symbolsC3) = some 0 ∧
    get_exports symbolsC3 ≠ [("main", 0x400400)] := by
  decide

/-- C8 counterexample: the claim states that both architecture functions
fail with an unsupported-architecture error on every input outside the five
known tags. Elf.arch_to_simuvex_arch has no else branch, so on the unknown
input sparc it returns None (the ok none value) instead of raising. -/
theorem spec2proof_C8_cx :
    arch_to_simuvex_arch "sparc" = Except.ok none :=
  rfl

/-- Helper: the Boolean containment test of Segment.contains_addr holds
exactly when the address is strictly inside the segment range. -/
theorem contains_addr_iff (s : Segment) (addr : Nat) :
    s.contains_addr addr = true ↔ s.vaddr < addr ∧ addr < s.vaddr + s.size := by
  simp [Segment.contains_addr]

/-- C6: in_which_segment returns the name of a segment strictly containing
the address — vaddr < addr < vaddr + size, both boundary points excluded —
and returns none exactly when no segment of the object strictly contains
the address. -/
theorem spec2proof_C6 (segs : List Segment) (addr : Nat) :
    (∀ nm, in_which_segment segs addr = some nm →
      ∃ s ∈ segs, s.name = nm ∧ s.vaddr < addr ∧ addr < s.vaddr + s.size) ∧
    (in_which_segment segs addr = none →
      ∀ s ∈ segs, ¬ (s.vaddr < addr ∧ addr < s.vaddr + s.size)) := by
  induction segs with
  | nil =>
    refine ⟨?_, ?_⟩
    · intro nm h; cases h
    · intro _ s hs; cases hs
  | cons s rest ih =>
    refine ⟨?_, ?_⟩
    · intro nm h
      by_cases hc : s.contains_addr addr = true
      · simp only [in_which_segment, if_pos hc] at h
        injection h with h
        exact ⟨s, List.mem_cons_self s rest, h, (contains_addr_iff s addr).mp hc⟩
      · simp only [in_which_segment, if_neg hc] at h
        obtain ⟨s2, hs2, hname, hin⟩ := ih.1 nm h
        exact ⟨s2, List.mem_cons_of_mem s hs2, hname, hin⟩
    · intro h s2 hs2
      by_cases hc : s.contains_addr addr = true
      · simp only [in_which_segment, if_pos hc] at h
        cases h
      · simp only [in_which_segment, if_neg hc] at h
        rcases List.mem_cons.mp hs2 with heq | hmem
        · subst heq
          intro hcontra
          exact hc ((contains_addr_iff s2 addr).mpr hcontra)
        · exact ih.2 h s2 hmem

/-- Witness for C6: in the one-segment list segsC6 the address 0x20 lies
strictly inside [0x10, 0x30], and in_which_segment indeed returns text. -/
theorem spec2proof_C6_witness :
    ∃ s ∈ segsC6, s.name = "text" ∧ s.vaddr < 0x20 ∧ 0x20 < s.vaddr + s.size :=
  (spec2proof_C6 segsC6 0x20).1 "text" (by decide)

/-- Helper: find_symbol_addr ignores every leading shared object whose
exports do not contain the symbol. -/
theorem find_symbol_addr_skip (name : String) :
    ∀ (pre rest : List SObj),
      (∀ p ∈ pre, List.lookup name (get_exports p.symbols) = none) →
      find_symbol_addr (pre ++ rest) name = find_symbol_addr rest name := by
  intro pre
  induction pre with
  | nil => intro rest _; rfl
  | cons p ps ih =>
    intro rest hnone
    have hp := hnone p (List.mem_cons_self p ps)
    show find_symbol_addr (p :: (ps ++ rest)) name = _
    simp only [find_symbol_addr, hp]
    exact ih rest (fun q hq => hnone q (List.mem_cons_of_mem p hq))

/-- C10: when the first shared object in load order whose exports contain
the name exports it at address 0 and has rebase_addr 0, find_symbol_addr
returns the integer 0, the truthiness test of Ld.__reloc treats it like
None, and the GOT slot is left untouched exactly as for an unresolved
symbol, even though a dependency does export the name. -/
theorem spec2proof_C10 (pre post : List SObj) (so obj : SObj) (m : Mem)
    (name : String) (got : Nat)
    (hfirst : ∀ p ∈ pre, List.lookup name (get_exports p.symbols) = none)
    (hexp : List.lookup name (get_exports so.symbols) = some 0)
    (hreb : so.rebase_addr = 0) :
    reloc_entry (pre ++ so :: post) obj m (name, got) = m := by
  have hfind : find_symbol_addr (pre ++ so :: post) name = some 0 := by
    rw [find_symbol_addr_skip name pre (so :: post) hfirst]
    simp only [find_symbol_addr, hexp, hreb]
  simp only [reloc_entry, hfind]
  simp

/-- Witness for C10: soC10 exports f at 0 with rebase_addr 0, and relocating
the entry (f, 0x10) of objC10 (itself rebased to 0x1000) leaves the composed
memory untouched. -/
theorem spec2proof_C10_witness :
    List.lookup "f" (get_exports soC10.symbols) = some 0 ∧
    soC10.rebase_addr = 0 ∧
    reloc_entry ([] ++ soC10 :: []) objC10 emptyMem ("f", 0x10) = emptyMem :=
  ⟨by decide, rfl,
    spec2proof_C10 [] [] soC10 objC10 emptyMem "f" 0x10 (by simp) (by decide) rfl⟩

/-- C3, amended: get_imports returns exactly the symbols whose type field is
SHN_UNDEF; get_exports returns exactly the symbols whose binding is
STB_GLOBAL, with no section test, so the undefined global printf is
exported as well. On the concrete table: imports = only printf, exports =
printf and main, and the local helper appears in neither. -/
theorem spec2proof_C3 :
    (∀ (symbols : List (String × Symb)) (name : String) (a : Nat),
        (name, a) ∈ get_imports symbols ↔
          ∃ s : Symb, (name, s) ∈ symbols ∧ s.type = "SHN_UNDEF" ∧ s.addr = a) ∧
    (∀ (symbols : List (String × Symb)) (name : String) (a : Nat),
        (name, a) ∈ get_exports symbols ↔
          ∃ s : Symb, (name, s) ∈ symbols ∧ s.binding = "STB_GLOBAL" ∧ s.addr = a) ∧
    get_imports symbolsC3 = [("printf", 0)] ∧
    get_exports symbolsC3 = [("printf", 0), ("main", 0x400400)] ∧
    List.lookup "helper" (get_imports symbolsC3) = none ∧
    List.lookup "helper" (get_exports symbolsC3) = none := by
  refine ⟨?_, ?_, by decide, by decide, by decide, by decide⟩
  · intro symbols name a
    simp only [get_imports, List.mem_map, List.mem_filter, decide_eq_true_eq]
    constructor
    · rintro ⟨⟨n, s⟩, ⟨hmem, htype⟩, heq⟩
      injection heq with hn ha
      subst hn
      subst ha
      exact ⟨s, hmem, htype, rfl⟩
    · rintro ⟨s, hmem, htype, rfl⟩
      exact ⟨(name, s), ⟨hmem, htype⟩, rfl⟩
  · intro symbols name a
    simp only [get_exports, List.mem_map, List.mem_filter, decide_eq_true_eq]
    constructor
    · rintro ⟨⟨n, s⟩, ⟨hmem, hbind⟩, heq⟩
      injection heq with hn ha
      subst hn
      subst ha
      exact ⟨s, hmem, hbind, rfl⟩
    · rintro ⟨s, hmem, hbind, rfl⟩
      exact ⟨(name, s), ⟨hmem, hbind⟩, rfl⟩

/-- C8, amended: arch_to_qemu_arch maps the five known tags and raises
CLException (unsupported architecture) on every other input;
arch_to_simuvex_arch maps the five known tags but returns None, not an
error, on every other input. -/
theorem spec2proof_C8 :
    arch_to_qemu_arch "i386:x86-64" = Except.ok "x86_64" ∧
    arch_to_qemu_arch "mips:isa32" = Except.ok "mips" ∧
    arch_to_qemu_arch "powerpc:common" = Except.ok "ppc" ∧
    arch_to_qemu_arch "armv4t" = Except.ok "arm" ∧
    arch_to_qemu_arch "i386" = Except.ok "i386" ∧
    arch_to_simuvex_arch "i386:x86-64" = Except.ok (some "AMD64") ∧
    arch_to_simuvex_arch "mips:isa32" = Except.ok (some "MIPS32") ∧
    arch_to_simuvex_arch "powerpc:common" = Except.ok (some "PPC32") ∧
    arch_to_simuvex_arch "armv4t" = Except.ok (some "ARM") ∧
    arch_to_simuvex_arch "i386" = Except.ok (some "X86") ∧
    (∀ arch : String, arch ∉ knownArchTags →
      arch_to_qemu_arch arch =
          Except.error ("Architecture name conversion not implemented yetfor " ++ arch) ∧
        arch_to_simuvex_arch arch = Except.ok none) := by
  refine ⟨rfl, rfl, rfl, rfl, rfl, rfl, rfl, rfl, rfl, rfl, ?_⟩
  intro arch h
  simp only [knownArchTags, List.mem_cons, List.not_mem_nil, or_false] at h
  push_neg at h
  obtain ⟨h1, h2, h3, h4, h5⟩ := h
  constructor
  · simp only [arch_to_qemu_arch, if_neg h1, if_neg h2, if_neg h3, if_neg h4, if_neg h5]
  · simp only [arch_to_simuvex_arch, if_neg h1, if_neg h2, if_neg h3, if_neg h4, if_neg h5]

/-- Witness for C8: sparc is outside the known tag set; the qemu conversion
raises and the simuvex conversion returns None. -/
theorem spec2proof_C8_witness :
    "sparc" ∉ knownArchTags ∧
    (arch_to_qemu_arch "sparc" =
        Except.error ("Architecture name conversion not implemented yetfor " ++ "sparc") ∧
      arch_to_simuvex_arch "sparc" = Except.ok none) :=
  ⟨by decide, spec2proof_C8.2.2.2.2.2.2.2.2.2.2 "sparc" (by decide)⟩

/-- Helper: pointwise description of the BSS fill loop — addresses inside
[off, off + size) read zero afterwards, every other address is untouched. -/
theorem fill_zero_spec :
    ∀ (size off : Nat) (m : Mem) (a : Nat),
      fill_zero m off size a = if off ≤ a ∧ a < off + size then some 0 else m a := by
  intro size
  induction size with
  | zero =>
    intro off m a
    rw [if_neg (by omega)]
    rfl
  | succ k ih =>
    intro off m a
    show fill_zero (store m off 0) (off + 1) k a = _
    rw [ih]
    by_cases h1 : off + 1 ≤ a ∧ a < off + 1 + k
    · rw [if_pos h1, if_pos (by omega)]
    · rw [if_neg h1]
      simp only [store]
      by_cases h2 : a = off
      · rw [if_pos h2, if_pos (by omega)]
      · rw [if_neg h2, if_neg (by omega)]

/-- Helper: when the target range is free, the segment copy loop succeeds
and the resulting memory holds the file byte offset + (a - vaddr) at every
address a of [vaddr, vaddr + size) and is untouched elsewhere. -/
theorem load_seg_bytes_spec (file : Nat → Nat) :
    ∀ (size offset vaddr : Nat) (m : Mem),
      (∀ i, i < size → m (vaddr + i) = none) →
      ∃ m2, load_seg_bytes file offset vaddr size m = some m2 ∧
        ∀ a, m2 a =
          if vaddr ≤ a ∧ a < vaddr + size then some (file (offset + (a - vaddr)))
          else m a := by
  intro size
  induction size with
  | zero =>
    intro offset vaddr m _
    refine ⟨m, rfl, ?_⟩
    intro a
    rw [if_neg (by omega)]
  | succ k ih =>
    intro offset vaddr m hfree
    have h0 : m vaddr = none := by
      have h := hfree 0 (Nat.succ_pos k)
      simpa using h
    have hfree2 : ∀ i, i < k → store m vaddr (file offset) (vaddr + 1 + i) = none := by
      intro i hi
      simp only [store]
      rw [if_neg (by omega)]
      have h := hfree (i + 1) (by omega)
      have harr : vaddr + (i + 1) = vaddr + 1 + i := by omega
      rw [harr] at h
      exact h
    obtain ⟨m2, hrun, hprop⟩ := ih (offset + 1) (vaddr + 1) (store m vaddr (file offset)) hfree2
    refine ⟨m2, ?_, ?_⟩
    · have hstep : load_seg_bytes file offset vaddr (k + 1) m
          = load_seg_bytes file (offset + 1) (vaddr + 1) k (store m vaddr (file offset)) := by
        show (if (m vaddr).isSome = true then none
          else load_seg_bytes file (offset + 1) (vaddr + 1) k (store m vaddr (file offset))) = _
        rw [h0]
        rfl
      rw [hstep]
      exact hrun
    · intro a
      rw [hprop a]
      by_cases h1 : vaddr + 1 ≤ a ∧ a < vaddr + 1 + k
      · rw [if_pos h1, if_pos (by omega)]
        have harr : offset + 1 + (a - (vaddr + 1)) = offset + (a - vaddr) := by omega
        rw [harr]
      · rw [if_neg h1]
        simp only [store]
        by_cases h2 : a = vaddr
        · rw [if_pos h2, if_pos (by omega)]
          have harr : a - vaddr = 0 := by omega
          rw [harr, Nat.add_zero]
        · rw [if_neg h2, if_neg (by omega)]

/-- C9 counterexample: the claim states that after loading an object whose
data program header has filesz < memsz, the byte map assigns the byte zero
to no address at or beyond data.vaddr + data.memsz. The loader accepts a
layout whose text segment sits above the data segment: with text at 0x200
(filesz = memsz = 0x10), data at 0x100 (filesz 0x2, memsz 0x4, end 0x104)
and an all-zero binary file, loading succeeds and the byte map assigns the
byte zero at address 0x200, which is at or beyond 0x104. -/
theorem spec2proof_C9_cx :
    get_data_phdr_ent phdrC9x = some dC9x ∧
    dC9x.filesz < dC9x.memsz ∧
    dC9x.vaddr + dC9x.memsz ≤ 0x200 ∧
    (elf_load fileC9x phdrC9x).map (fun m => m 0x200) = some (some 0) := by
  decide

/-- C9, amended: after loading an object whose data program header has
filesz < memsz and whose text segment lies wholly below the data segment
(the layout of the scenario of the claim), the private byte map holds the
byte zero at every address of [data.vaddr + data.filesz,
data.vaddr + data.memsz) and holds nothing at any address at or beyond
data.vaddr + data.memsz. Without the layout restriction a zero file byte
of a text segment placed above the data segment can sit at or beyond
data.vaddr + data.memsz, as the counterexample shows. -/
theorem spec2proof_C9 (file : Nat → Nat) (phdr : List Phdr) (t d : Phdr)
    (h1 : get_text_phdr_ent phdr = some t) (h2 : get_data_phdr_ent phdr = some d)
    (h3 : d.filesz < d.memsz) (h4 : t.vaddr + t.filesz ≤ d.vaddr) :
    ∃ m, elf_load file phdr = some m ∧
      (∀ a, d.vaddr + d.filesz ≤ a → a < d.vaddr + d.memsz → m a = some 0) ∧
      (∀ a, d.vaddr + d.memsz ≤ a → m a = none) := by
  obtain ⟨m1, hrun1, hm1⟩ :=
    load_seg_bytes_spec file t.filesz t.offset t.vaddr emptyMem (fun i _ => rfl)
  have hfree : ∀ i, i < d.filesz → m1 (d.vaddr + i) = none := by
    intro i hi
    rw [hm1, if_neg (by omega)]
    rfl
  obtain ⟨m2, hrun2, hm2⟩ := load_seg_bytes_spec file d.filesz d.offset d.vaddr m1 hfree
  refine ⟨load_bss m2 d, ?_, ?_, ?_⟩
  · simp only [elf_load, h1, hrun1, h2, hrun2]
  · intro a ha1 ha2
    simp only [load_bss]
    rw [fill_zero_spec, if_pos (by omega)]
  · intro a ha
    simp only [load_bss]
    rw [fill_zero_spec, if_neg (by omega), hm2, if_neg (by omega), hm1, if_neg (by omega)]
    rfl

/-- Witness for C9: the lone-executable scenario — text at 0x08048000 with
filesz = memsz = 0x1000, data at 0x08049000 with filesz 0x100 and memsz
0x200, every file byte 0xAB — yields zeros exactly on [0x08049100,
0x08049200) and nothing at or beyond 0x08049200. -/
theorem spec2proof_C9_witness :
    get_text_phdr_ent phdrC5 = some tC5 ∧
    get_data_phdr_ent phdrC5 = some dC5 ∧
    dC5.filesz < dC5.memsz ∧
    tC5.vaddr + tC5.filesz ≤ dC5.vaddr ∧
    (∃ m, elf_load fileC9 phdrC5 = some m ∧
      (∀ a, dC5.vaddr + dC5.filesz ≤ a → a < dC5.vaddr + dC5.memsz → m a = some 0) ∧
      (∀ a, dC5.vaddr + dC5.memsz ≤ a → m a = none)) :=
  ⟨by decide, by decide, by decide, by decide,
    spec2proof_C9 fileC9 phdrC5 tC5 dC5 (by decide) (by decide) (by decide) (by decide)⟩

end Cle
